import Mathlib

/-!
A verification development for the Unreal Engine client component
`UAgentEClient` (`examples/unreal-client/AgentEClient.h` /
`AgentEClient.cpp`).  The component keeps two `int32` fields
(`TickCounter`, `LastHealth`) and two editor-settable configuration
properties (`ServerUrl`, `TickInterval`); its operations are
`OnGameTick`, `SendTick`, `CheckHealth`, `BuildStateJson`,
`GetLastHealth` and the HTTP completion handler `HandleTickResponse`.

The embedding below is shallow: each C++ member function becomes a pure
Lean function from the component state (plus the function's inputs) to a
new state together with the externally visible effects of the call — the
delegate broadcasts it performs and the HTTP requests it starts.
`int32` values are modelled as unbounded integers; every behaviour the
theorems touch stays far inside the `int32` range, where C++ signed
arithmetic agrees with ℤ (signed overflow is undefined behaviour and is
not modelled).  JSON numbers (`double` in Unreal's `FJsonValueNumber`)
are modelled as rationals.
-/

set_option maxRecDepth 16384

namespace AgentE

/-- JSON values as held by Unreal's `FJsonValue`.  An object is its field
list in order; `FJsonObject` stores fields in a `TMap`, so an object
reachable from the engine's deserializer has pairwise distinct keys. -/
inductive JValue : Type where
  | jnull : JValue
  | jbool : Bool → JValue
  | jnum : ℚ → JValue
  | jstr : String → JValue
  | jarr : List JValue → JValue
  | jobj : List (String × JValue) → JValue

/-- Association-list form of an `FJsonObject`. -/
abbrev JObj : Type := List (String × JValue)

/-- The fields of `UAgentEClient` (header lines 66-102): the two
editor-settable configuration properties and the two private `int32`
fields. -/
structure ClientState where
  serverUrl : String
  tickInterval : Int
  tickCounter : Int
  lastHealth : Int
deriving DecidableEq

/-- A freshly constructed component with the header's field initializers:
`ServerUrl = "http://localhost:3000"`, `TickInterval = 5`,
`TickCounter = 0`, `LastHealth = 100`. -/
def defaultState : ClientState :=
  { serverUrl := "http://localhost:3000"
    tickInterval := 5
    tickCounter := 0
    lastHealth := 100 }

/-- A component whose editor-settable properties were changed before play;
the private fields keep their initializers. -/
def mkState (url : String) (interval : Int) : ClientState :=
  { serverUrl := url, tickInterval := interval, tickCounter := 0, lastHealth := 100 }

/-- An HTTP request as configured through `IHttpRequest` before
`ProcessRequest`. -/
structure HttpRequest where
  url : String
  verb : String
  headers : List (String × String)
  body : Option String
deriving DecidableEq

/-- A delegate broadcast performed by the component:
`OnAdjustmentReceived.Broadcast(Key, Value)` or
`OnAlertReceived.Broadcast(Principle, Name, Severity)`. -/
inductive Event : Type where
  | adjustment : String → ℚ → Event
  | alert : String → String → Int → Event
deriving DecidableEq

/-- Result of one call into the component: the state after the call, the
broadcasts it performed in order, and the HTTP requests it started. -/
structure StepOut where
  state : ClientState
  events : List Event
  requests : List HttpRequest
deriving DecidableEq

/-- `FJsonObject` field lookup (`TryGetField`). -/
def lookupField (fields : JObj) (name : String) : Option JValue :=
  (fields.find? (fun p => p.1 == name)).map (fun p => p.2)

/-- `FJsonObject::GetNumberField`: the field's numeric value, `0` when the
field is missing or not a number (Unreal logs an error and returns `0` on
those paths; Unreal's coercion of numeric strings and booleans to numbers
is not modelled — nothing below exercises it). -/
def getNumberField (fields : JObj) (name : String) : ℚ :=
  match lookupField fields name with
  | some (JValue.jnum q) => q
  | _ => 0

/-- `FJsonObject::GetStringField`: the field's string value, `""` when the
field is missing or not a string (Unreal logs an error and returns the
empty string; number-to-string coercion is not modelled). -/
def getStringField (fields : JObj) (name : String) : String :=
  match lookupField fields name with
  | some (JValue.jstr s) => s
  | _ => ""

/-- Truncation toward zero: the C++ `(int32)double` conversion performed by
`FJsonObject::GetIntegerField`. -/
def ratTrunc (q : ℚ) : Int :=
  Int.tdiv q.num (q.den : Int)

/-- `FJsonObject::GetIntegerField`, i.e. `(int32)GetNumberField(...)`. -/
def getIntegerField (fields : JObj) (name : String) : Int :=
  ratTrunc (getNumberField fields name)

/-- `FJsonValue::AsObject`: the object's fields, `none` for non-objects. -/
def asObject : JValue → Option JObj
  | JValue.jobj fs => some fs
  | _ => none

/-- `FJsonObject::TryGetArrayField`: succeeds exactly when the field is
present and is an array. -/
def tryGetArrayField (fields : JObj) (name : String) : Option (List JValue) :=
  match lookupField fields name with
  | some (JValue.jarr xs) => some xs
  | _ => none

/-! ### Decimal rendering of the tick counter

`BuildStateJson` splices `TickCounter` into a fixed template with
`FString::Printf`'s `%d`, which prints the decimal numeral (with a leading
`-` for negative values).  `natDigitsAux` is fuel-indexed structural
recursion so that concrete numerals reduce definitionally. -/

/-- The decimal digit character for `d < 10` (and `'9'` above, never used). -/
def digitCh : Nat → Char
  | 0 => '0'
  | 1 => '1'
  | 2 => '2'
  | 3 => '3'
  | 4 => '4'
  | 5 => '5'
  | 6 => '6'
  | 7 => '7'
  | 8 => '8'
  | _ => '9'

/-- Big-endian decimal digits of `n`; correct whenever `n ≤ fuel`. -/
def natDigitsAux : Nat → Nat → List Char
  | 0, _ => []
  | _ + 1, 0 => []
  | fuel + 1, n + 1 => natDigitsAux fuel ((n + 1) / 10) ++ [digitCh ((n + 1) % 10)]

/-- The decimal numeral of a natural number, as characters. -/
def natNumeralChars (n : Nat) : List Char :=
  if n = 0 then ['0'] else natDigitsAux (n + 1) n

/-- `%d` for an `int32` value. -/
def intNumeral : Int → String
  | Int.ofNat n => String.mk (natNumeralChars n)
  | Int.negSucc n => String.mk ('-' :: natNumeralChars (n + 1))

/-- The fixed part of the `BuildStateJson` raw-string template before the
spliced tick counter (`AgentEClient.cpp` line 81 onward, byte for byte). -/
def jsonPre : String := "\x7b\n        \"tick\": "

/-- The fixed part of the `BuildStateJson` raw-string template after the
spliced tick counter (lines 82-102, byte for byte). -/
def jsonPost : String :=
  ",\n        \"roles\": [\"role_a\", \"role_b\", \"role_c\"],\n        \"resources\": [\"resource_x\", \"resource_y\"],\n        \"currencies\": [\"currency_a\"],\n        \"agentBalances\": \x7b\n            \"agent_1\": \x7b \"currency_a\": 150 \x7d,\n            \"agent_2\": \x7b \"currency_a\": 80 \x7d\n        \x7d,\n        \"agentRoles\": \x7b\n            \"agent_1\": \"role_a\",\n            \"agent_2\": \"role_b\"\n        \x7d,\n        \"agentInventories\": \x7b\n            \"agent_1\": \x7b \"resource_x\": 2 \x7d,\n            \"agent_2\": \x7b \"resource_y\": 5 \x7d\n        \x7d,\n        \"marketPrices\": \x7b\n            \"currency_a\": \x7b \"resource_x\": 15, \"resource_y\": 50 \x7d\n        \x7d,\n        \"recentTransactions\": []\n    \x7d"

/-- `UAgentEClient::BuildStateJson` (lines 76-103): the fixed placeholder
template with the current `TickCounter` printed by `%d`. -/
def buildStateJson (s : ClientState) : String :=
  jsonPre ++ intNumeral s.tickCounter ++ jsonPost

/-- The request configured by `UAgentEClient::SendTick` (lines 36-52):
`POST <ServerUrl>/tick` with a JSON content type and body
`{"state":<BuildStateJson()>}`. -/
def tickRequest (s : ClientState) : HttpRequest :=
  { url := s.serverUrl ++ "/tick"
    verb := "POST"
    headers := [("Content-Type", "application/json")]
    body := some ("\x7b\"state\":" ++ buildStateJson s ++ "\x7d") }

/-- `UAgentEClient::OnGameTick` (lines 25-32): increment `TickCounter`,
then call `SendTick` iff `TickCounter % TickInterval == 0`.  C++ `%` on
`int32` is truncated division, `Int.tmod`; division by zero is undefined
behaviour and is modelled as `none`. -/
def onGameTick (s : ClientState) : Option StepOut :=
  if s.tickInterval = 0 then none
  else
    let s1 : ClientState := { s with tickCounter := s.tickCounter + 1 }
    some { state := s1
           events := []
           requests :=
             if Int.tmod s1.tickCounter s1.tickInterval = 0 then [tickRequest s1] else [] }

/-- The request configured by `UAgentEClient::CheckHealth` (lines 54-71):
`GET <ServerUrl>/health`, no headers set, no body. -/
def checkHealthRequest (s : ClientState) : HttpRequest :=
  { url := s.serverUrl ++ "/health", verb := "GET", headers := [], body := none }

/-- `UAgentEClient::CheckHealth`: starts the health request; its completion
lambda only logs, so neither the call nor the completion touches any
field, and no broadcast is performed. -/
def checkHealth (s : ClientState) : StepOut :=
  { state := s, events := [], requests := [checkHealthRequest s] }

/-- `UAgentEClient::GetLastHealth` (header line 95): a `const` read of
`LastHealth`. -/
def getLastHealth (s : ClientState) : Int :=
  s.lastHealth

/-- The adjustment broadcasts produced by lines 129-145: one
`OnAdjustmentReceived.Broadcast(GetStringField("key"),
GetNumberField("value"))` per element of the array whose `AsObject()` is
valid, in array order; non-object elements are skipped. -/
def adjustmentEvents (arr : List JValue) : List Event :=
  arr.filterMap (fun v =>
    match asObject v with
    | some adj => some (Event.adjustment (getStringField adj "key") (getNumberField adj "value"))
    | none => none)

/-- The alert broadcasts produced by lines 147-163: one
`OnAlertReceived.Broadcast(GetStringField("principle"),
GetStringField("name"), GetIntegerField("severity"))` per object element,
in array order; non-object elements are skipped. -/
def alertEvents (arr : List JValue) : List Event :=
  arr.filterMap (fun v =>
    match asObject v with
    | some al =>
        some (Event.alert (getStringField al "principle") (getStringField al "name")
          (getIntegerField al "severity"))
    | none => none)

/-- `UAgentEClient::HandleTickResponse` (lines 107-164).  Inputs: the state
at callback time, `bSuccess`, `Response.IsValid()`, and the result of
`FJsonSerializer::Deserialize` on the response body (`none` when the body
is not a valid JSON object).  Early-outs return with no field change, no
broadcast and no request; otherwise `LastHealth :=
GetIntegerField("health")`, then the adjustment broadcasts, then the
alert broadcasts.  The handler never starts a request. -/
def handleTickResponse (s : ClientState) (bSuccess : Bool) (respValid : Bool)
    (parsed : Option JObj) : StepOut :=
  if !bSuccess || !respValid then { state := s, events := [], requests := [] }
  else
    match parsed with
    | none => { state := s, events := [], requests := [] }
    | some obj =>
      let s1 : ClientState := { s with lastHealth := getIntegerField obj "health" }
      let adjs : List Event :=
        match tryGetArrayField obj "adjustments" with
        | some arr => adjustmentEvents arr
        | none => []
      let als : List Event :=
        match tryGetArrayField obj "alerts" with
        | some arr => alertEvents arr
        | none => []
      { state := s1, events := adjs ++ als, requests := [] }

/-- Iterated calls to `OnGameTick`: the state after `n` calls together
with, per call in order, whether that call started the tick request. -/
def runTicks (s : ClientState) : Nat → Option (ClientState × List Bool)
  | 0 => some (s, [])
  | n + 1 =>
    match runTicks s n with
    | none => none
    | some (s1, flags) =>
      match onGameTick s1 with
      | none => none
      | some o => some (o.state, flags ++ [decide (o.requests ≠ [])])

/-- States reachable from a freshly added component through its public
entry points: `OnGameTick`, `CheckHealth`, and the HTTP completion
handler with arbitrary network input. -/
inductive Reach : ClientState → Prop where
  | init : ∀ (url : String) (interval : Int), Reach (mkState url interval)
  | tick : ∀ (s : ClientState) (o : StepOut), Reach s → onGameTick s = some o →
      Reach o.state
  | health : ∀ s : ClientState, Reach s → Reach (checkHealth s).state
  | resp : ∀ (s : ClientState) (b v : Bool) (parsed : Option JObj), Reach s →
      Reach (handleTickResponse s b v parsed).state

/-- States reachable when, additionally, every response that parses as a
JSON object carries a numeric `"health"` field within the documented
0-100 range (a server honouring the health-score contract). -/
inductive ReachGood : ClientState → Prop where
  | init : ∀ (url : String) (interval : Int), ReachGood (mkState url interval)
  | tick : ∀ (s : ClientState) (o : StepOut), ReachGood s → onGameTick s = some o →
      ReachGood o.state
  | health : ∀ s : ClientState, ReachGood s → ReachGood (checkHealth s).state
  | resp : ∀ (s : ClientState) (b v : Bool) (parsed : Option JObj), ReachGood s →
      (∀ obj, parsed = some obj → ∃ q : ℚ,
        lookupField obj "health" = some (JValue.jnum q) ∧ 0 ≤ q ∧ q ≤ 100) →
      ReachGood (handleTickResponse s b v parsed).state

/-! ### A JSON recognizer

To settle whether `BuildStateJson` returns a valid JSON document we need a
notion of JSON validity inside the embedding.  `parsers` below recognizes
a subset of RFC 8259: objects, arrays, strings without escape sequences,
integer numbers without leading zeros, `true`, `false`, `null`, with
arbitrary whitespace between tokens.  Every string the recognizer accepts
is a valid JSON document (the subset excludes, it never adds), so
acceptance is a sound witness of validity.  Fuel-indexed structural
recursion keeps concrete runs definitionally reducible. -/

/-- Insignificant whitespace (RFC 8259 `ws`). -/
def isWsChar (c : Char) : Bool :=
  decide (c = ' ') || decide (c = '\n') || decide (c = '\t') || decide (c = '\r')

/-- Skip insignificant whitespace. -/
def dropWs (cs : List Char) : List Char := cs.dropWhile isWsChar

/-- Decimal digit character. -/
def isDigitChar (c : Char) : Bool := decide (48 ≤ c.toNat) && decide (c.toNat ≤ 57)

/-- Numeric value of a digit character. -/
def digitVal (c : Char) : Nat := c.toNat - 48

/-- Value of a big-endian string of digit characters. -/
def digitsVal (ds : List Char) : Nat := ds.foldl (fun a c => 10 * a + digitVal c) 0

/-- Characters allowed unescaped inside a JSON string literal: everything
except the quote, the backslash, and control characters. -/
def isStrChar (c : Char) : Bool :=
  !decide (c = '"') && !decide (c = '\\') && decide (32 ≤ c.toNat)

/-- The body of a string literal after the opening quote, up to and
including the closing quote. -/
def parseStringBody (cs : List Char) : Option (String × List Char) :=
  match cs.dropWhile isStrChar with
  | '"' :: rest => some (String.mk (cs.takeWhile isStrChar), rest)
  | _ => none

/-- A nonempty digit run without leading zeros, with its value. -/
def parseNat (cs : List Char) : Option (Nat × List Char) :=
  match cs.takeWhile isDigitChar with
  | [] => none
  | d :: ds =>
    if d = '0' ∧ ds ≠ [] then none
    else some (digitsVal (d :: ds), cs.dropWhile isDigitChar)

/-- A JSON integer: an optional minus sign followed by a digit run. -/
def parseInt (cs : List Char) : Option (Int × List Char) :=
  match cs with
  | [] => none
  | c :: rest =>
    if c = '-' then (parseNat rest).map (fun p => (-(p.1 : Int), p.2))
    else (parseNat cs).map (fun p => ((p.1 : Int), p.2))

/-- The recognizer, by fuel: a triple of the value parser, the object
member-list parser (after the opening brace, consuming the closing
brace), and the array element-list parser (after the opening bracket,
consuming the closing bracket). -/
def parsers : Nat →
    ((List Char → Option (JValue × List Char)) ×
      (List Char → Option (JObj × List Char)) ×
      (List Char → Option (List JValue × List Char)))
  | 0 => (fun _ => none, fun _ => none, fun _ => none)
  | fuel + 1 =>
    let P := parsers fuel
    (fun cs =>
      match dropWs cs with
      | [] => none
      | c :: rest =>
        if c = '"' then (parseStringBody rest).map (fun p => (JValue.jstr p.1, p.2))
        else if c = '\x7b' then (P.2.1 rest).map (fun p => (JValue.jobj p.1, p.2))
        else if c = '[' then (P.2.2 rest).map (fun p => (JValue.jarr p.1, p.2))
        else if c = 't' then
          if rest.take 3 = ['r', 'u', 'e'] then some (JValue.jbool true, rest.drop 3)
          else none
        else if c = 'f' then
          if rest.take 4 = ['a', 'l', 's', 'e'] then some (JValue.jbool false, rest.drop 4)
          else none
        else if c = 'n' then
          if rest.take 3 = ['u', 'l', 'l'] then some (JValue.jnull, rest.drop 3)
          else none
        else if c = '-' ∨ isDigitChar c then
          (parseInt (c :: rest)).map (fun p => (JValue.jnum (p.1 : ℚ), p.2))
        else none,
      fun cs =>
      match dropWs cs with
      | [] => none
      | c :: rest =>
        if c = '\x7d' then some ([], rest)
        else if c = '"' then
          match parseStringBody rest with
          | none => none
          | some (key, rest2) =>
            match dropWs rest2 with
            | [] => none
            | c2 :: rest3 =>
              if c2 = ':' then
                match P.1 rest3 with
                | none => none
                | some (v, rest4) =>
                  match dropWs rest4 with
                  | [] => none
                  | c3 :: rest5 =>
                    if c3 = ',' then
                      match P.2.1 rest5 with
                      | none => none
                      | some ([], _) => none
                      | some (f :: fs, rest6) => some ((key, v) :: f :: fs, rest6)
                    else if c3 = '\x7d' then some ([(key, v)], rest5)
                    else none
              else none
        else none,
      fun cs =>
      match dropWs cs with
      | [] => none
      | c :: rest =>
        if c = ']' then some ([], rest)
        else
          match P.1 (c :: rest) with
          | none => none
          | some (v, rest2) =>
            match dropWs rest2 with
            | [] => none
            | c2 :: rest3 =>
              if c2 = ',' then
                match P.2.2 rest3 with
                | none => none
                | some ([], _) => none
                | some (w :: ws, rest4) => some (v :: w :: ws, rest4)
              else if c2 = ']' then some ([v], rest3)
              else none)

/-- Parse a complete JSON document: one value, with nothing but
whitespace after it.  Fuel 64 is far above the template's nesting depth
and member counts; acceptance at any fuel only ever happens on valid
JSON. -/
def parseJson (s : String) : Option JValue :=
  match (parsers 64).1 s.data with
  | some (v, rest) => if dropWs rest = [] then some v else none
  | none => none

/-- The template after the spliced tick counter with the separating comma
removed: the input on which the recognizer parses the remaining eight
members of the top-level object. -/
def jsonPostAfterComma : String :=
  "\n        \"roles\": [\"role_a\", \"role_b\", \"role_c\"],\n        \"resources\": [\"resource_x\", \"resource_y\"],\n        \"currencies\": [\"currency_a\"],\n        \"agentBalances\": \x7b\n            \"agent_1\": \x7b \"currency_a\": 150 \x7d,\n            \"agent_2\": \x7b \"currency_a\": 80 \x7d\n        \x7d,\n        \"agentRoles\": \x7b\n            \"agent_1\": \"role_a\",\n            \"agent_2\": \"role_b\"\n        \x7d,\n        \"agentInventories\": \x7b\n            \"agent_1\": \x7b \"resource_x\": 2 \x7d,\n            \"agent_2\": \x7b \"resource_y\": 5 \x7d\n        \x7d,\n        \"marketPrices\": \x7b\n            \"currency_a\": \x7b \"resource_x\": 15, \"resource_y\": 50 \x7d\n        \x7d,\n        \"recentTransactions\": []\n    \x7d"

/-- The eight fixed members that follow `"tick"` in the template. -/
def stateTailFields : JObj :=
  [("roles", JValue.jarr [JValue.jstr "role_a", JValue.jstr "role_b", JValue.jstr "role_c"]),
   ("resources", JValue.jarr [JValue.jstr "resource_x", JValue.jstr "resource_y"]),
   ("currencies", JValue.jarr [JValue.jstr "currency_a"]),
   ("agentBalances", JValue.jobj
     [("agent_1", JValue.jobj [("currency_a", JValue.jnum 150)]),
      ("agent_2", JValue.jobj [("currency_a", JValue.jnum 80)])]),
   ("agentRoles", JValue.jobj
     [("agent_1", JValue.jstr "role_a"), ("agent_2", JValue.jstr "role_b")]),
   ("agentInventories", JValue.jobj
     [("agent_1", JValue.jobj [("resource_x", JValue.jnum 2)]),
      ("agent_2", JValue.jobj [("resource_y", JValue.jnum 5)])]),
   ("marketPrices", JValue.jobj
     [("currency_a", JValue.jobj
       [("resource_x", JValue.jnum 15), ("resource_y", JValue.jnum 50)])]),
   ("recentTransactions", JValue.jarr [])]

/-- The field list of the `BuildStateJson` template at tick `t`. -/
def stateFields (t : Int) : JObj :=
  ("tick", JValue.jnum (t : ℚ)) :: stateTailFields

/-- The JSON value of the `BuildStateJson` template at tick `t`. -/
def stateJson (t : Int) : JValue :=
  JValue.jobj (stateFields t)

/-! ### Numeral lemmas -/

/-- `natDigitsAux` at zero is empty for every fuel. -/
theorem natDigitsAux_zero (fuel : Nat) : natDigitsAux fuel 0 = [] := by
  cases fuel <;> rfl

/-- Digit characters of small values. -/
theorem digitCh_isDigit (r : Nat) (h : r < 10) : isDigitChar (digitCh r) = true := by
  interval_cases r <;> decide

/-- `digitVal` inverts `digitCh` below ten. -/
theorem digitVal_digitCh (r : Nat) (h : r < 10) : digitVal (digitCh r) = r := by
  interval_cases r <;> decide

/-- Nonzero digits do not render as `'0'`. -/
theorem digitCh_ne_zero (r : Nat) (h0 : 0 < r) (h10 : r < 10) : digitCh r ≠ '0' := by
  interval_cases r <;> decide

/-- Appending one digit multiplies the value by ten and adds the digit. -/
theorem digitsVal_append (l : List Char) (c : Char) :
    digitsVal (l ++ [c]) = 10 * digitsVal l + digitVal c := by
  simp [digitsVal, List.foldl_append]

/-- `natDigitsAux` renders the decimal value it was given. -/
theorem digitsVal_natDigitsAux (fuel : Nat) :
    ∀ n : Nat, n ≤ fuel → digitsVal (natDigitsAux fuel n) = n := by
  induction fuel with
  | zero =>
    intro n hn
    have : n = 0 := Nat.le_zero.mp hn
    subst this
    rfl
  | succ fuel ih =>
    intro n hn
    cases n with
    | zero => rfl
    | succ n =>
      rw [natDigitsAux, digitsVal_append, ih ((n + 1) / 10) (by omega),
        digitVal_digitCh ((n + 1) % 10) (by omega)]
      omega

/-- Every character `natDigitsAux` emits is a digit. -/
theorem mem_natDigitsAux_digit (fuel : Nat) :
    ∀ (n : Nat) (c : Char), c ∈ natDigitsAux fuel n → isDigitChar c = true := by
  induction fuel with
  | zero => intro n c hc; cases hc
  | succ fuel ih =>
    intro n c hc
    cases n with
    | zero => cases hc
    | succ n =>
      rw [natDigitsAux] at hc
      rcases List.mem_append.mp hc with h | h
      · exact ih _ c h
      · rw [List.mem_singleton.mp h]
        exact digitCh_isDigit _ (by omega)

/-- `natDigitsAux` of a positive value is nonempty. -/
theorem natDigitsAux_ne_nil (fuel n : Nat) (h0 : 0 < n) (hn : n ≤ fuel) :
    natDigitsAux fuel n ≠ [] := by
  cases fuel with
  | zero => omega
  | succ fuel =>
    cases n with
    | zero => omega
    | succ n =>
      rw [natDigitsAux]
      exact List.append_ne_nil_of_right_ne_nil _ (by simp)

/-- The leading digit of a positive value is not `'0'`. -/
theorem natDigitsAux_head_ne_zero (fuel : Nat) :
    ∀ (n : Nat), 0 < n → n ≤ fuel → ∀ d ds, natDigitsAux fuel n = d :: ds → d ≠ '0' := by
  induction fuel with
  | zero => intro n h0 hn; omega
  | succ fuel ih =>
    intro n h0 hn d ds hds
    cases n with
    | zero => omega
    | succ n =>
      rw [natDigitsAux] at hds
      by_cases hq : (n + 1) / 10 = 0
      · rw [hq, natDigitsAux_zero, List.nil_append] at hds
        cases hds
        have : (n + 1) % 10 = n + 1 := Nat.mod_eq_of_lt (by omega)
        exact digitCh_ne_zero _ (by omega) (by omega)
      · obtain ⟨e, es, hes⟩ :
            ∃ e es, natDigitsAux fuel ((n + 1) / 10) = e :: es := by
          rcases h : natDigitsAux fuel ((n + 1) / 10) with _ | ⟨e, es⟩
          · exact absurd h (natDigitsAux_ne_nil fuel _ (by omega) (by omega))
          · exact ⟨e, es, rfl⟩
        rw [hes] at hds
        cases hds
        exact ih ((n + 1) / 10) (by omega) (by omega) d es hes

/-- The bundle of facts about the decimal numeral of a natural number:
its value, nonemptiness, digit-only characters, and no leading zero. -/
theorem natNumeralChars_spec (n : Nat) :
    digitsVal (natNumeralChars n) = n ∧
    natNumeralChars n ≠ [] ∧
    (∀ c ∈ natNumeralChars n, isDigitChar c = true) ∧
    (∀ d ds, natNumeralChars n = d :: ds → ¬(d = '0' ∧ ds ≠ [])) := by
  by_cases h : n = 0
  · subst h
    refine ⟨by decide, by decide, by decide, ?_⟩
    intro d ds hds
    rw [show natNumeralChars 0 = ['0'] from rfl] at hds
    cases hds
    simp
  · rw [natNumeralChars, if_neg h]
    refine ⟨digitsVal_natDigitsAux (n + 1) n (by omega), natDigitsAux_ne_nil _ _ (by omega) (by omega),
      fun c hc => mem_natDigitsAux_digit _ _ c hc, ?_⟩
    intro d ds hds hbad
    exact natDigitsAux_head_ne_zero (n + 1) n (by omega) (by omega) d ds hds hbad.1

/-! ### Recognizer lemmas -/

/-- `takeWhile`/`dropWhile` split an append at the first failing
character. -/
theorem takeWhile_dropWhile_append {p : Char → Bool} (l r : List Char)
    (hl : ∀ c ∈ l, p c = true) (hr : ∀ c, r.head? = some c → p c = false) :
    (l ++ r).takeWhile p = l ∧ (l ++ r).dropWhile p = r := by
  induction l with
  | nil =>
    simp only [List.nil_append]
    cases r with
    | nil => exact ⟨rfl, rfl⟩
    | cons c r' =>
      have hc := hr c rfl
      rw [List.takeWhile_cons, List.dropWhile_cons, hc]
      exact ⟨rfl, rfl⟩
  | cons a l' ih =>
    have ha := hl a (by simp)
    obtain ⟨h1, h2⟩ := ih (fun c hc => hl c (by simp [hc]))
    constructor
    · simp [List.takeWhile_cons, ha, h1]
    · simp [List.dropWhile_cons, ha, h2]

/-- A digit character is none of the recognizer's other dispatch
characters, and not whitespace. -/
theorem isDigitChar_facts (c : Char) (h : isDigitChar c = true) :
    c ≠ '"' ∧ c ≠ '\x7b' ∧ c ≠ '[' ∧ c ≠ 't' ∧ c ≠ 'f' ∧ c ≠ 'n' ∧ c ≠ '-' ∧
      isWsChar c = false := by
  refine ⟨?_, ?_, ?_, ?_, ?_, ?_, ?_, ?_⟩
  · intro he; rw [he] at h; exact absurd h (by decide)
  · intro he; rw [he] at h; exact absurd h (by decide)
  · intro he; rw [he] at h; exact absurd h (by decide)
  · intro he; rw [he] at h; exact absurd h (by decide)
  · intro he; rw [he] at h; exact absurd h (by decide)
  · intro he; rw [he] at h; exact absurd h (by decide)
  · intro he; rw [he] at h; exact absurd h (by decide)
  · have h1 : c ≠ ' ' := by intro he; rw [he] at h; exact absurd h (by decide)
    have h2 : c ≠ '\n' := by intro he; rw [he] at h; exact absurd h (by decide)
    have h3 : c ≠ '\t' := by intro he; rw [he] at h; exact absurd h (by decide)
    have h4 : c ≠ '\r' := by intro he; rw [he] at h; exact absurd h (by decide)
    simp [isWsChar, h1, h2, h3, h4]

/-- `parseNat` consumes exactly the numeral of `n` when the remainder does
not begin with a digit. -/
theorem parseNat_numeral (n : Nat) (rest : List Char)
    (hrest : ∀ c, rest.head? = some c → isDigitChar c = false) :
    parseNat (natNumeralChars n ++ rest) = some (n, rest) := by
  obtain ⟨hval, hne, hdig, hlead⟩ := natNumeralChars_spec n
  obtain ⟨htake, hdrop⟩ := takeWhile_dropWhile_append (natNumeralChars n) rest hdig hrest
  rcases hnc : natNumeralChars n with _ | ⟨d, ds⟩
  · exact absurd hnc hne
  · have hval2 : digitsVal (d :: ds) = n := by rw [← hnc]; exact hval
    rw [hnc] at htake hdrop
    simp only [parseNat, htake, hdrop]
    rw [if_neg (hlead d ds hnc), hval2]

/-- `parseInt` consumes exactly the `%d` rendering of `t` when the
remainder does not begin with a digit. -/
theorem parseInt_intNumeral (t : Int) (rest : List Char)
    (hrest : ∀ c, rest.head? = some c → isDigitChar c = false) :
    parseInt ((intNumeral t).data ++ rest) = some (t, rest) := by
  cases t with
  | ofNat n =>
    rw [show (intNumeral (Int.ofNat n)).data = natNumeralChars n from rfl]
    obtain ⟨hval, hne, hdig, hlead⟩ := natNumeralChars_spec n
    rcases hnc : natNumeralChars n with _ | ⟨d, ds⟩
    · exact absurd hnc hne
    · have hd : isDigitChar d = true := hdig d (by rw [hnc]; exact List.mem_cons_self d ds)
      rw [List.cons_append]
      simp only [parseInt]
      rw [if_neg (isDigitChar_facts d hd).2.2.2.2.2.2.1, ← List.cons_append, ← hnc,
        parseNat_numeral n rest hrest]
      rfl
  | negSucc n =>
    rw [show (intNumeral (Int.negSucc n)).data = '-' :: natNumeralChars (n + 1) from rfl,
      List.cons_append]
    simp only [parseInt]
    rw [if_pos trivial, parseNat_numeral (n + 1) rest hrest]
    simp [Int.negSucc_eq]

/-- The head of the rendered numeral of `t`: a minus sign or a digit, and
in either case none of the other dispatch characters and not
whitespace. -/
theorem intNumeral_head (t : Int) :
    ∃ c tail, (intNumeral t).data = c :: tail ∧ (c = '-' ∨ isDigitChar c = true) ∧
      c ≠ '"' ∧ c ≠ '\x7b' ∧ c ≠ '[' ∧ c ≠ 't' ∧ c ≠ 'f' ∧ c ≠ 'n' ∧
      isWsChar c = false := by
  cases t with
  | ofNat n =>
    obtain ⟨hval, hne, hdig, hlead⟩ := natNumeralChars_spec n
    rcases hnc : natNumeralChars n with _ | ⟨d, ds⟩
    · exact absurd hnc hne
    · have hd : isDigitChar d = true := hdig d (by rw [hnc]; exact List.mem_cons_self d ds)
      obtain ⟨h1, h2, h3, h4, h5, h6, _, h8⟩ := isDigitChar_facts d hd
      exact ⟨d, ds, by rw [show (intNumeral (Int.ofNat n)).data = natNumeralChars n from rfl, hnc],
        Or.inr hd, h1, h2, h3, h4, h5, h6, h8⟩
  | negSucc n =>
    exact ⟨'-', natNumeralChars (n + 1),
      rfl, Or.inl rfl, by decide, by decide, by decide, by decide, by decide, by decide,
      by decide⟩

/-- The value parser on an input whose whitespace-stripped form is the
numeral of `t` followed by a non-digit remainder returns exactly
`JValue.jnum t`. -/
theorem parseValue_intNumeral (fuel : Nat) (t : Int) (cs rest : List Char)
    (hcs : dropWs cs = (intNumeral t).data ++ rest)
    (hrest : ∀ c, rest.head? = some c → isDigitChar c = false) :
    (parsers (fuel + 1)).1 cs = some (JValue.jnum (t : ℚ), rest) := by
  obtain ⟨c, tail, hdata, hnum, h1, h2, h3, h4, h5, h6, _⟩ := intNumeral_head t
  rw [hdata, List.cons_append] at hcs
  simp only [parsers]
  rw [hcs]
  dsimp only
  rw [if_neg h1, if_neg h2, if_neg h3, if_neg h4, if_neg h5, if_neg h6, if_pos hnum,
    ← List.cons_append, ← hdata, parseInt_intNumeral t rest hrest]
  rfl

/-- Dropping whitespace stops at a non-whitespace head. -/
theorem dropWs_cons_not_ws (c : Char) (l : List Char) (h : isWsChar c = false) :
    dropWs (c :: l) = c :: l := by
  simp [dropWs, List.dropWhile_cons, h]

/-- Dropping whitespace consumes exactly a whitespace prefix. -/
theorem dropWs_append (wsl rest : List Char) (hw : ∀ c ∈ wsl, isWsChar c = true)
    (hr : ∀ c, rest.head? = some c → isWsChar c = false) :
    dropWs (wsl ++ rest) = rest :=
  (takeWhile_dropWhile_append wsl rest hw hr).2

/-- A string body of plain characters parses up to the closing quote. -/
theorem parseStringBody_append (body rest : List Char)
    (hb : ∀ c ∈ body, isStrChar c = true) :
    parseStringBody (body ++ '"' :: rest) = some (String.mk body, rest) := by
  obtain ⟨htake, hdrop⟩ := takeWhile_dropWhile_append body ('"' :: rest) hb
    (fun c hc => by cases hc; decide)
  simp only [parseStringBody, htake, hdrop]

/-- The member-list parser consumes the whole of the template's top-level
object after the opening brace: the `"tick"` member with the spliced
counter, then the eight fixed members and the closing brace. -/
theorem parsersMembers_tick (t : Int) :
    (parsers 63).2.1
      ("\n        \"tick\": ".data ++ ((intNumeral t).data ++ jsonPost.data)) =
      some (stateFields t, []) := by
  have hpost : ∀ c, jsonPost.data.head? = some c → isDigitChar c = false := by
    intro c hc
    rw [show jsonPost.data.head? = some ',' from rfl] at hc
    cases hc
    decide
  obtain ⟨c0, tail0, hdata, hnum, hq1, hq2, hq3, hq4, hq5, hq6, hws0⟩ := intNumeral_head t
  have hx : dropWs ((intNumeral t).data ++ jsonPost.data) =
      (intNumeral t).data ++ jsonPost.data := by
    rw [hdata, List.cons_append]
    exact dropWs_cons_not_ws c0 _ hws0
  have hval : (parsers 62).1 (' ' :: ((intNumeral t).data ++ jsonPost.data)) =
      some (JValue.jnum (t : ℚ), jsonPost.data) := by
    rw [show (62 : Nat) = 61 + 1 from rfl]
    refine parseValue_intNumeral 61 t _ jsonPost.data ?_ hpost
    rw [show dropWs (' ' :: ((intNumeral t).data ++ jsonPost.data)) =
        dropWs ((intNumeral t).data ++ jsonPost.data) from by
      simp [dropWs, List.dropWhile_cons, isWsChar]]
    exact hx
  have hlabel : dropWs ("\n        \"tick\": ".data ++ ((intNumeral t).data ++ jsonPost.data)) =
      '"' :: ("tick".data ++ ('"' :: (':' :: (' ' :: ((intNumeral t).data ++ jsonPost.data))))) := by
    exact dropWs_append "\n        ".data
      ('"' :: ("tick".data ++ ('"' :: (':' :: (' ' :: ((intNumeral t).data ++ jsonPost.data))))))
      (by decide) (fun c hc => by cases hc; decide)
  have hkey : parseStringBody
      ("tick".data ++ ('"' :: (':' :: (' ' :: ((intNumeral t).data ++ jsonPost.data))))) =
      some ("tick", ':' :: (' ' :: ((intNumeral t).data ++ jsonPost.data))) :=
    parseStringBody_append "tick".data _ (by decide)
  have hcolon : dropWs (':' :: (' ' :: ((intNumeral t).data ++ jsonPost.data))) =
      ':' :: (' ' :: ((intNumeral t).data ++ jsonPost.data)) :=
    dropWs_cons_not_ws ':' _ (by decide)
  have hpostdrop : dropWs jsonPost.data = ',' :: jsonPostAfterComma.data := by rfl
  have htail : (parsers 62).2.1 jsonPostAfterComma.data = some (stateTailFields, []) := by rfl
  rw [show (63 : Nat) = Nat.succ 62 from rfl, parsers.eq_2]
  dsimp only
  rw [hlabel]
  dsimp only
  rw [if_neg (by decide : ¬('"' : Char) = '\x7d'), if_pos rfl, hkey]
  dsimp only
  rw [hcolon]
  dsimp only
  rw [if_pos rfl, hval]
  dsimp only
  rw [hpostdrop]
  dsimp only
  rw [if_pos rfl, htail]
  simp only [stateTailFields]
  rfl

/-- C6: for every component state, `BuildStateJson` returns a valid JSON
document (the recognizer, which accepts only an RFC 8259 subset, parses
it completely) whose `"tick"` field is exactly the current `TickCounter`
and whose top-level object holds exactly the fixed placeholder fields
`tick, roles, resources, currencies, agentBalances, agentRoles,
agentInventories, marketPrices, recentTransactions`. -/
theorem C6_buildStateJson_valid_json (s : ClientState) :
    parseJson (buildStateJson s) = some (stateJson s.tickCounter) ∧
    (stateFields s.tickCounter).map Prod.fst =
      ["tick", "roles", "resources", "currencies", "agentBalances", "agentRoles",
       "agentInventories", "marketPrices", "recentTransactions"] ∧
    lookupField (stateFields s.tickCounter) "tick" =
      some (JValue.jnum (s.tickCounter : ℚ)) := by
  refine ⟨?_, rfl, rfl⟩
  have hsplit : (buildStateJson s).data =
      '\x7b' :: ("\n        \"tick\": ".data ++
        ((intNumeral s.tickCounter).data ++ jsonPost.data)) := by
    show (jsonPre ++ intNumeral s.tickCounter ++ jsonPost).data = _
    rw [String.data_append, String.data_append, List.append_assoc]
    rfl
  simp only [parseJson]
  rw [hsplit, show (64 : Nat) = Nat.succ 63 from rfl, parsers.eq_2]
  dsimp only
  rw [dropWs_cons_not_ws '\x7b' _ (by decide)]
  dsimp only
  rw [if_neg (by decide : ¬('\x7b' : Char) = '"'), if_pos rfl,
    parsersMembers_tick s.tickCounter]
  rfl

/-! ### C7, C3, C4, C9 -/

/-- C7: `OnGameTick` evaluates `TickCounter % TickInterval` unguarded on
every call, so the call is free of the modulo-by-zero error branch exactly
when the editor-settable `TickInterval` is nonzero. -/
theorem C7_mod_by_zero_unreachable_iff (s : ClientState) :
    (onGameTick s).isSome ↔ s.tickInterval ≠ 0 := by
  unfold onGameTick
  split <;> simp_all

/-- C3: when the request failed (`bSuccess` false or invalid response) or
the body did not deserialize to a valid JSON object, `HandleTickResponse`
returns with the whole state — in particular `LastHealth` and
`TickCounter` — unchanged, performs no broadcast, and starts no request. -/
theorem C3_failure_paths_are_noops (s : ClientState) (bSuccess respValid : Bool)
    (parsed : Option JObj)
    (h : bSuccess = false ∨ respValid = false ∨ parsed = none) :
    handleTickResponse s bSuccess respValid parsed =
      { state := s, events := [], requests := [] } := by
  rcases h with h | h | h
  · subst h; simp [handleTickResponse]
  · subst h; simp [handleTickResponse]
  · subst h; cases bSuccess <;> cases respValid <;> simp [handleTickResponse]

/-- Witness for C3: a concrete failed request is a no-op. -/
theorem C3_failure_paths_are_noops_witness :
    handleTickResponse defaultState false true (some [("health", JValue.jnum 7)]) =
      { state := defaultState, events := [], requests := [] } :=
  C3_failure_paths_are_noops defaultState false true (some [("health", JValue.jnum 7)])
    (Or.inl rfl)

/-- C4: every tick request is `POST <ServerUrl>/tick` with content type
`application/json` and body `{"state":S}`, `S = BuildStateJson()`, and any
request `OnGameTick` starts is exactly that request for the post-increment
state; `CheckHealth` issues `GET <ServerUrl>/health` with no body and
leaves the component state unchanged regardless of the outcome. -/
theorem C4_http_request_shapes (s : ClientState) :
    ((tickRequest s).verb = "POST" ∧
      (tickRequest s).url = s.serverUrl ++ "/tick" ∧
      (tickRequest s).headers = [("Content-Type", "application/json")] ∧
      (tickRequest s).body = some ("\x7b\"state\":" ++ buildStateJson s ++ "\x7d")) ∧
    (∀ o : StepOut, onGameTick s = some o → ∀ r ∈ o.requests, r = tickRequest o.state) ∧
    ((checkHealth s).state = s ∧
      (checkHealth s).requests = [checkHealthRequest s] ∧
      (checkHealthRequest s).verb = "GET" ∧
      (checkHealthRequest s).url = s.serverUrl ++ "/health" ∧
      (checkHealthRequest s).body = none) := by
  refine ⟨⟨rfl, rfl, rfl, rfl⟩, ?_, rfl, rfl, rfl, rfl, rfl⟩
  intro o ho r hr
  unfold onGameTick at ho
  split at ho
  · cases ho
  · cases ho
    dsimp only at hr
    split at hr
    · rw [List.mem_singleton] at hr
      exact hr
    · cases hr

/-- Witness for C4 at a component with `TickInterval = 1`, whose first
`OnGameTick` does start a request. -/
theorem C4_http_request_shapes_witness :
    tickRequest { serverUrl := "http://h", tickInterval := 1, tickCounter := 1, lastHealth := 100 } =
      tickRequest { serverUrl := "http://h", tickInterval := 1, tickCounter := 1, lastHealth := 100 } ∧
    (checkHealth defaultState).state = defaultState := by
  refine ⟨?_, (C4_http_request_shapes defaultState).2.2.1⟩
  exact (C4_http_request_shapes (mkState "http://h" 1)).2.1
    { state := { serverUrl := "http://h", tickInterval := 1, tickCounter := 1, lastHealth := 100 }
      events := []
      requests := [tickRequest { serverUrl := "http://h", tickInterval := 1, tickCounter := 1, lastHealth := 100 }] }
    (by decide)
    (tickRequest { serverUrl := "http://h", tickInterval := 1, tickCounter := 1, lastHealth := 100 })
    (by simp)

/-- C9: `OnGameTick` changes only `TickCounter` (by exactly one) and keeps
`LastHealth`; `GetLastHealth` and `CheckHealth` change neither field; and
`HandleTickResponse` never changes `TickCounter` (nor the configuration). -/
theorem C9_frame_conditions (s : ClientState) (h : s.tickInterval ≠ 0) :
    (∃ o : StepOut, onGameTick s = some o ∧
        o.state.tickCounter = s.tickCounter + 1 ∧
        o.state.lastHealth = s.lastHealth ∧
        o.state.serverUrl = s.serverUrl ∧
        o.state.tickInterval = s.tickInterval) ∧
    getLastHealth s = s.lastHealth ∧
    (checkHealth s).state = s ∧
    (∀ (b v : Bool) (parsed : Option JObj),
        (handleTickResponse s b v parsed).state.tickCounter = s.tickCounter ∧
        (handleTickResponse s b v parsed).state.serverUrl = s.serverUrl ∧
        (handleTickResponse s b v parsed).state.tickInterval = s.tickInterval) := by
  refine ⟨?_, rfl, rfl, ?_⟩
  · unfold onGameTick
    rw [if_neg h]
    exact ⟨_, rfl, rfl, rfl, rfl, rfl⟩
  · intro b v parsed
    unfold handleTickResponse
    split
    · exact ⟨rfl, rfl, rfl⟩
    · cases parsed with
      | none => exact ⟨rfl, rfl, rfl⟩
      | some obj => exact ⟨rfl, rfl, rfl⟩

/-- Witness for C9 at the default-constructed component. -/
theorem C9_frame_conditions_witness :
    getLastHealth defaultState = defaultState.lastHealth ∧
    (checkHealth defaultState).state = defaultState :=
  ⟨(C9_frame_conditions defaultState (by decide)).2.1,
   (C9_frame_conditions defaultState (by decide)).2.2.1⟩

/-! ### C2, C5: broadcast semantics of `HandleTickResponse` -/

/-- On the success path, the events are the adjustment broadcasts followed
by the alert broadcasts of the two arrays. -/
theorem events_eq_of_arrays (s : ClientState) (obj : JObj)
    (adjArr alertArr : List JValue)
    (h1 : tryGetArrayField obj "adjustments" = some adjArr)
    (h2 : tryGetArrayField obj "alerts" = some alertArr) :
    (handleTickResponse s true true (some obj)).events =
      adjustmentEvents adjArr ++ alertEvents alertArr := by
  simp [handleTickResponse, h1, h2]

/-- A `filterMap` produces one output per input on which the function
succeeds. -/
theorem length_filterMap_eq_countP {α β : Type} (f : α → Option β) (l : List α) :
    (l.filterMap f).length = l.countP (fun a => (f a).isSome) := by
  induction l with
  | nil => rfl
  | cons a t ih =>
    rw [List.filterMap_cons, List.countP_cons]
    cases hfa : f a
    · simp [hfa, ih]
    · simp [hfa, ih]

/-- One adjustment broadcast per object element of the array. -/
theorem adjustmentEvents_length (arr : List JValue) :
    (adjustmentEvents arr).length = arr.countP (fun v => (asObject v).isSome) := by
  rw [adjustmentEvents, length_filterMap_eq_countP]
  refine List.countP_congr ?_
  intro v _
  cases asObject v <;> rfl

/-- One alert broadcast per object element of the array. -/
theorem alertEvents_length (arr : List JValue) :
    (alertEvents arr).length = arr.countP (fun v => (asObject v).isSome) := by
  rw [alertEvents, length_filterMap_eq_countP]
  refine List.countP_congr ?_
  intro v _
  cases asObject v <;> rfl

/-- C2: on a successfully parsed response, the broadcast sequence is the
adjustment broadcasts (one `OnAdjustmentReceived` per object element of
`adjustments`, in array order) followed by the alert broadcasts (one
`OnAlertReceived` per object element of `alerts`, in array order) — so
every adjustment broadcast precedes every alert broadcast — and for an
element carrying `"key"`/`"value"` (resp. `"principle"`/`"name"`/
`"severity"`) fields of the contract's types, the broadcast carries
exactly those values, unvalidated and unclamped. -/
theorem C2_broadcast_dispatch (s : ClientState) (obj : JObj)
    (adjArr alertArr : List JValue)
    (h1 : tryGetArrayField obj "adjustments" = some adjArr)
    (h2 : tryGetArrayField obj "alerts" = some alertArr) :
    ((handleTickResponse s true true (some obj)).events =
        adjustmentEvents adjArr ++ alertEvents alertArr) ∧
    ((adjustmentEvents adjArr).length = adjArr.countP (fun v => (asObject v).isSome)) ∧
    ((alertEvents alertArr).length = alertArr.countP (fun v => (asObject v).isSome)) ∧
    (∀ e ∈ adjustmentEvents adjArr, ∃ k q, e = Event.adjustment k q) ∧
    (∀ e ∈ alertEvents alertArr, ∃ p n sev, e = Event.alert p n sev) ∧
    (∀ (adj : JObj) (k : String) (q : ℚ),
        lookupField adj "key" = some (JValue.jstr k) →
        lookupField adj "value" = some (JValue.jnum q) →
        adjustmentEvents [JValue.jobj adj] = [Event.adjustment k q]) ∧
    (∀ (al : JObj) (p n : String) (sev : Int),
        lookupField al "principle" = some (JValue.jstr p) →
        lookupField al "name" = some (JValue.jstr n) →
        lookupField al "severity" = some (JValue.jnum (sev : ℚ)) →
        alertEvents [JValue.jobj al] = [Event.alert p n sev]) := by
  refine ⟨events_eq_of_arrays s obj adjArr alertArr h1 h2,
    adjustmentEvents_length adjArr, alertEvents_length alertArr, ?_, ?_, ?_, ?_⟩
  · intro e he
    simp only [adjustmentEvents, List.mem_filterMap] at he
    obtain ⟨v, -, hv⟩ := he
    cases hov : asObject v <;> rw [hov] at hv
    · cases hv
    · cases hv
      exact ⟨_, _, rfl⟩
  · intro e he
    simp only [alertEvents, List.mem_filterMap] at he
    obtain ⟨v, -, hv⟩ := he
    cases hov : asObject v <;> rw [hov] at hv
    · cases hv
    · cases hv
      exact ⟨_, _, _, rfl⟩
  · intro adj k q hk hq
    simp [adjustmentEvents, asObject, getStringField, getNumberField, hk, hq]
  · intro al p n sev hp hn hs
    simp [alertEvents, asObject, getStringField, getNumberField, getIntegerField,
      hp, hn, hs, ratTrunc, Rat.num_intCast, Rat.den_intCast, Int.tdiv_one]

/-- Witness for C2 on a concrete two-adjustment, one-alert response. -/
theorem C2_broadcast_dispatch_witness :
    (handleTickResponse defaultState true true
        (some [("health", JValue.jnum 70),
               ("adjustments", JValue.jarr
                 [JValue.jobj [("key", JValue.jstr "tax_rate"), ("value", JValue.jnum 2)],
                  JValue.jobj [("key", JValue.jstr "spawn_rate"), ("value", JValue.jnum 7)]]),
               ("alerts", JValue.jarr
                 [JValue.jobj [("principle", JValue.jstr "scarcity"),
                               ("name", JValue.jstr "gold_glut"),
                               ("severity", JValue.jnum 3)]])])).events =
      adjustmentEvents
          [JValue.jobj [("key", JValue.jstr "tax_rate"), ("value", JValue.jnum 2)],
           JValue.jobj [("key", JValue.jstr "spawn_rate"), ("value", JValue.jnum 7)]] ++
        alertEvents
          [JValue.jobj [("principle", JValue.jstr "scarcity"),
                        ("name", JValue.jstr "gold_glut"),
                        ("severity", JValue.jnum 3)]] :=
  (C2_broadcast_dispatch defaultState
      [("health", JValue.jnum 70),
       ("adjustments", JValue.jarr
         [JValue.jobj [("key", JValue.jstr "tax_rate"), ("value", JValue.jnum 2)],
          JValue.jobj [("key", JValue.jstr "spawn_rate"), ("value", JValue.jnum 7)]]),
       ("alerts", JValue.jarr
         [JValue.jobj [("principle", JValue.jstr "scarcity"),
                       ("name", JValue.jstr "gold_glut"),
                       ("severity", JValue.jnum 3)]])]
      _ _ rfl rfl).1

/-- C5: on a successfully parsed response, `LastHealth` is updated from the
`"health"` field whatever the rest of the object looks like; a missing
`"adjustments"` (resp. `"alerts"`) field only suppresses that family of
broadcasts; and a non-object array element is skipped while every object
element still produces its broadcast. -/
theorem C5_partial_responses_tolerated (s : ClientState) (obj : JObj) :
    ((handleTickResponse s true true (some obj)).state.lastHealth =
        getIntegerField obj "health") ∧
    (tryGetArrayField obj "adjustments" = none →
      (handleTickResponse s true true (some obj)).events =
        (match tryGetArrayField obj "alerts" with
          | some arr => alertEvents arr
          | none => [])) ∧
    (tryGetArrayField obj "alerts" = none →
      (handleTickResponse s true true (some obj)).events =
        (match tryGetArrayField obj "adjustments" with
          | some arr => adjustmentEvents arr
          | none => [])) ∧
    (∀ (v : JValue) (arr : List JValue), asObject v = none →
        adjustmentEvents (v :: arr) = adjustmentEvents arr) ∧
    (∀ (v : JValue) (arr : List JValue), asObject v = none →
        alertEvents (v :: arr) = alertEvents arr) ∧
    (∀ (adj : JObj) (arr : List JValue),
        adjustmentEvents (JValue.jobj adj :: arr) =
          Event.adjustment (getStringField adj "key") (getNumberField adj "value") ::
            adjustmentEvents arr) ∧
    (∀ (al : JObj) (arr : List JValue),
        alertEvents (JValue.jobj al :: arr) =
          Event.alert (getStringField al "principle") (getStringField al "name")
              (getIntegerField al "severity") ::
            alertEvents arr) := by
  refine ⟨?_, ?_, ?_, ?_, ?_, ?_, ?_⟩
  · simp [handleTickResponse]
  · intro h
    simp [handleTickResponse, h]
  · intro h
    simp [handleTickResponse, h]
  · intro v arr hv
    simp [adjustmentEvents, List.filterMap_cons, hv]
  · intro v arr hv
    simp [alertEvents, List.filterMap_cons, hv]
  · intro adj arr
    simp [adjustmentEvents, List.filterMap_cons, asObject]
  · intro al arr
    simp [alertEvents, List.filterMap_cons, asObject]

/-- Witness for C5 on a concrete response with a missing `adjustments`
field and a non-object element in `alerts`. -/
theorem C5_partial_responses_tolerated_witness :
    ((handleTickResponse defaultState true true
        (some [("health", JValue.jnum 55),
               ("alerts", JValue.jarr [JValue.jnull])])).state.lastHealth =
      getIntegerField [("health", JValue.jnum 55),
        ("alerts", JValue.jarr [JValue.jnull])] "health") ∧
    alertEvents [JValue.jnull] = alertEvents [] := by
  refine ⟨(C5_partial_responses_tolerated defaultState
    [("health", JValue.jnum 55), ("alerts", JValue.jarr [JValue.jnull])]).1, ?_⟩
  exact (C5_partial_responses_tolerated defaultState []).2.2.2.2.1 JValue.jnull [] rfl

/-! ### C1: tick cadence of `OnGameTick` -/

/-- A single `OnGameTick` call with a nonzero interval, in closed form. -/
theorem onGameTick_step (s : ClientState) (h : s.tickInterval ≠ 0) :
    onGameTick s = some
      { state := { s with tickCounter := s.tickCounter + 1 }
        events := []
        requests :=
          if Int.tmod (s.tickCounter + 1) s.tickInterval = 0
          then [tickRequest { s with tickCounter := s.tickCounter + 1 }] else [] } := by
  unfold onGameTick
  rw [if_neg h]

/-- After `n` calls the counter has grown by exactly `n`, and the `i`-th
call (0-based) started the tick request iff `TickInterval` divides the
incremented counter value `TickCounter + i + 1`. -/
theorem runTicks_trace (s : ClientState) (h : s.tickInterval ≠ 0) (n : Nat) :
    runTicks s n = some
      ({ s with tickCounter := s.tickCounter + n },
        (List.range n).map
          (fun i : Nat => decide (s.tickInterval ∣ (s.tickCounter + (i : Int) + 1)))) := by
  induction n with
  | zero => simp [runTicks]
  | succ n ih =>
    rw [runTicks, ih]
    dsimp only
    rw [onGameTick_step { s with tickCounter := s.tickCounter + (n : Int) } h]
    dsimp only
    have hc : s.tickCounter + (n : Int) + 1 = s.tickCounter + ((n + 1 : Nat) : Int) := by
      push_cast
      ring
    have hflag :
        decide ((if Int.tmod (s.tickCounter + (n : Int) + 1) s.tickInterval = 0
            then [tickRequest { s with tickCounter := s.tickCounter + (n : Int) + 1 }]
            else []) ≠ []) =
          decide (s.tickInterval ∣ (s.tickCounter + (n : Int) + 1)) := by
      by_cases hdvd : s.tickInterval ∣ (s.tickCounter + (n : Int) + 1)
      · rw [if_pos (Int.dvd_iff_tmod_eq_zero.mp hdvd)]
        simp [hdvd]
      · rw [if_neg (fun h0 => hdvd (Int.dvd_iff_tmod_eq_zero.mpr h0))]
        simp [hdvd]
    simp only [List.range_succ, List.map_append, List.map_cons, List.map_nil]
    rw [← hc, ← hflag]

/-- In every window of `T` consecutive integers starting at `m`, exactly
one is divisible by `T`. -/
theorem window_one_dvd (T : Int) (hT : 0 < T) (m : Int) :
    ((List.range T.toNat).filter
      (fun j : Nat => decide (T ∣ (m + (j : Int))))).length = 1 := by
  have hTne : T ≠ 0 := ne_of_gt hT
  have hr0 : 0 ≤ (-m) % T := Int.emod_nonneg _ hTne
  have hrT : (-m) % T < T := Int.emod_lt_of_pos _ hT
  have hdvd : T ∣ (m + (-m) % T) := by
    rw [Int.emod_def]
    exact ⟨-((-m) / T), by ring⟩
  have hpoint : ∀ j ∈ List.range T.toNat,
      decide (T ∣ (m + (j : Int))) = (j == ((-m) % T).toNat) := by
    intro j hj
    have hjT : (j : Int) < T := Int.lt_toNat.mp (List.mem_range.mp hj)
    have : (T ∣ (m + j)) ↔ (j = ((-m) % T).toNat) := by
      constructor
      · intro hd
        have hsub : T ∣ ((m + j) - (m + (-m) % T)) := dvd_sub hd hdvd
        have hz : (m + j) - (m + (-m) % T) = 0 := by
          refine Int.eq_zero_of_abs_lt_dvd hsub ?_
          rw [abs_lt]
          constructor <;> omega
        omega
      · intro hj0
        have : (j : Int) = (-m) % T := by omega
        rw [this]
        exact hdvd
    by_cases hjk : j = ((-m) % T).toNat
    · have h1 : (j == ((-m) % T).toNat) = true := by simp [hjk]
      have h2 : decide (T ∣ (m + (j : Int))) = true := decide_eq_true (this.mpr hjk)
      rw [h1, h2]
    · have h1 : (j == ((-m) % T).toNat) = false := by simp [hjk]
      have h2 : decide (T ∣ (m + (j : Int))) = false :=
        decide_eq_false (fun hd => hjk (this.mp hd))
      rw [h1, h2]
  rw [List.filter_congr hpoint, ← List.countP_eq_length_filter]
  have hmem : ((-m) % T).toNat ∈ List.range T.toNat :=
    List.mem_range.mpr (by omega)
  have := List.count_eq_one_of_mem (List.nodup_range T.toNat) hmem
  simpa [List.count] using this

/-- C1: with `TickInterval > 0`, a sequence of `n` `OnGameTick` calls
increments `TickCounter` by exactly one per call (to `TickCounter + n`),
the `i`-th call starts the tick request iff the incremented counter
`TickCounter + i + 1` is divisible by `TickInterval`, and every window of
`TickInterval` consecutive calls contains exactly one request-starting
call. -/
theorem C1_tick_cadence (s : ClientState) (h : 0 < s.tickInterval) :
    (∀ n : Nat, runTicks s n = some
      ({ s with tickCounter := s.tickCounter + n },
        (List.range n).map
          (fun i : Nat => decide (s.tickInterval ∣ (s.tickCounter + (i : Int) + 1))))) ∧
    (∀ k : Nat,
      ((List.range s.tickInterval.toNat).filter
        (fun j : Nat =>
          decide (s.tickInterval ∣ (s.tickCounter + (k : Int) + (j : Int) + 1)))).length = 1) := by
  refine ⟨runTicks_trace s (ne_of_gt h), ?_⟩
  intro k
  have hwin := window_one_dvd s.tickInterval h (s.tickCounter + k + 1)
  rw [List.filter_congr (fun j _ => ?_)]
  · exact hwin
  · refine decide_eq_decide.mpr ?_
    rw [show s.tickCounter + (k : Int) + (j : Int) + 1
        = s.tickCounter + (k : Int) + 1 + (j : Int) from by ring]

/-- Witness for C1: the default component (`TickInterval = 5`) over seven
calls sends exactly on the fifth, and each 5-call window starting at call
3 contains exactly one sending call. -/
theorem C1_tick_cadence_witness :
    runTicks defaultState 7 = some
      ({ defaultState with tickCounter := 7 },
        [false, false, false, false, true, false, false]) ∧
    ((List.range (5 : Int).toNat).filter
      (fun j : Nat =>
        decide ((5 : Int) ∣ ((0 : Int) + (3 : Int) + (j : Int) + 1)))).length = 1 := by
  constructor
  · have h := (C1_tick_cadence defaultState (by decide)).1 7
    rw [h]
    decide
  · have h := (C1_tick_cadence defaultState (by decide)).2 3
    simpa [defaultState] using h

/-! ### C8: range of `GetLastHealth` -/

/-- Counterexample to C8 as stated: the component reaches a state in which
`GetLastHealth` returns `500` — the handler stores the response's
`"health"` field without any clamping, so the 0-100 range claimed for
every reachable state fails on the very first response carrying an
out-of-range health value. -/
theorem C8_health_range_counterexample :
    Reach ((handleTickResponse defaultState true true
        (some [("health", JValue.jnum 500)])).state) ∧
    getLastHealth ((handleTickResponse defaultState true true
        (some [("health", JValue.jnum 500)])).state) = 500 ∧
    ¬ getLastHealth ((handleTickResponse defaultState true true
        (some [("health", JValue.jnum 500)])).state) ≤ 100 := by
  refine ⟨Reach.resp defaultState true true (some [("health", JValue.jnum 500)])
    (Reach.init "http://localhost:3000" 5), ?_, ?_⟩
  · norm_num [handleTickResponse, getLastHealth, getIntegerField, getNumberField,
      lookupField, ratTrunc]
  · norm_num [handleTickResponse, getLastHealth, getIntegerField, getNumberField,
      lookupField, ratTrunc]

/-- Truncation of a rational within `[0, 100]` lands in `[0, 100]`. -/
theorem ratTrunc_mem_Icc (q : ℚ) (h0 : 0 ≤ q) (h100 : q ≤ 100) :
    0 ≤ ratTrunc q ∧ ratTrunc q ≤ 100 := by
  have hnum : 0 ≤ q.num := Rat.num_nonneg.mpr h0
  have hden : (0 : Int) ≤ (q.den : Int) := Int.ofNat_nonneg q.den
  have hfloor : ratTrunc q = ⌊q⌋ := by
    rw [ratTrunc, Int.tdiv_eq_ediv hnum hden, ← Rat.floor_def]
  constructor
  · rw [hfloor]
    exact Int.floor_nonneg.mpr h0
  · rw [hfloor]
    calc ⌊q⌋ ≤ ⌊(100 : ℚ)⌋ := Int.floor_le_floor h100
    _ = 100 := by norm_num

/-- C8 amended: `LastHealth` starts at 100, and the handler overwrites it
with the truncated `"health"` value of each successfully parsed response,
with no clamping; consequently `GetLastHealth` stays within 0-100 on
every run in which each parsed response carries a numeric health field in
the documented 0-100 range (and only the counterexample's out-of-range
input breaks it). -/
theorem C8_health_range_under_contract (s : ClientState) (h : ReachGood s) :
    (0 ≤ getLastHealth s ∧ getLastHealth s ≤ 100) ∧
    (∀ (url : String) (interval : Int), getLastHealth (mkState url interval) = 100) ∧
    (∀ (obj : JObj) (q : ℚ), lookupField obj "health" = some (JValue.jnum q) →
        (handleTickResponse s true true (some obj)).state.lastHealth = ratTrunc q) := by
  refine ⟨?_, fun _ _ => rfl, ?_⟩
  · induction h with
    | init url interval => exact ⟨by norm_num [getLastHealth, mkState], by norm_num [getLastHealth, mkState]⟩
    | tick s o hs ho ih =>
      have : o.state.lastHealth = s.lastHealth := by
        unfold onGameTick at ho
        split at ho
        · cases ho
        · cases ho
          rfl
      rw [getLastHealth, this]
      exact ih
    | health s hs ih => exact ih
    | resp s b v parsed hs hgood ih =>
      cases b with
      | false => exact ih
      | true =>
        cases v with
        | false => exact ih
        | true =>
          cases parsed with
          | none => exact ih
          | some obj =>
            obtain ⟨q, hq, h0, h100⟩ := hgood obj rfl
            have : (handleTickResponse s true true (some obj)).state.lastHealth =
                ratTrunc q := by
              simp [handleTickResponse, getIntegerField, getNumberField, hq]
            rw [getLastHealth, this]
            exact ratTrunc_mem_Icc q h0 h100
  · intro obj q hq
    simp [handleTickResponse, getIntegerField, getNumberField, hq]

/-- Witness for the amended C8 at the freshly added component after one
in-contract response. -/
theorem C8_health_range_under_contract_witness :
    0 ≤ getLastHealth ((handleTickResponse defaultState true true
        (some [("health", JValue.jnum 42)])).state) ∧
    getLastHealth ((handleTickResponse defaultState true true
        (some [("health", JValue.jnum 42)])).state) ≤ 100 :=
  (C8_health_range_under_contract
    ((handleTickResponse defaultState true true
        (some [("health", JValue.jnum 42)])).state)
    (ReachGood.resp defaultState true true (some [("health", JValue.jnum 42)])
      (ReachGood.init "http://localhost:3000" 5)
      (fun obj hobj => by
        cases hobj
        exact ⟨42, rfl, by norm_num, by norm_num⟩))).1

end AgentE
